import Mathlib

/-!
# GoBanking transaction core — shallow embedding

A shallow embedding of the transaction-application core of the `go-banking`
service, translated from the Go source:

* `app/helpers/helpers.go` — `ValidateID`, `ParseAmount` and the error values;
* `app/api` transactions handler — `CreateTransactionHandler`,
  `validateAndParseTransactionAmount`, `runInTx`, `createTransactionInTx`,
  `updateBalanceInTx`;
* the SQL schema (`transactions` table with `id TEXT PRIMARY KEY` and
  `account_id ... REFERENCES accounts(id)`, `accounts` table) and the sqlc
  query `CreateTransaction`.

Modelling conventions:

* Monetary values (`DECIMAL(10,2)` columns, Go `float64`) are modelled as
  exact rationals `ℚ`.  `math.Round` (round half away from zero) agrees with
  Mathlib's `round` on the positive values that reach it.  Binary `float64`
  representation error is idealised away.
* Database state is a pair of lists (accounts table, transactions table);
  the sqlc queries become pure functions on that state, fallible ones
  returning `Except Err`.
* `strconv.ParseFloat` / `strconv.ParseInt` are modelled by executable
  decimal parsers over the character list of the input string (sign, digits,
  optional fraction, optional exponent); 64-bit overflow, hexadecimal forms
  and `Inf`/`NaN` literals are not modelled.
-/

set_option maxRecDepth 20000

namespace GoBanking

instance {ε α : Type} [DecidableEq ε] [DecidableEq α] :
    DecidableEq (Except ε α) := fun x y =>
  match x, y with
  | .error e, .error f =>
    if h : e = f then .isTrue (by rw [h])
    else .isFalse (by intro hh; cases hh; exact h rfl)
  | .error _, .ok _ => .isFalse (by intro h; cases h)
  | .ok _, .error _ => .isFalse (by intro h; cases h)
  | .ok a, .ok b =>
    if h : a = b then .isTrue (by rw [h])
    else .isFalse (by intro hh; cases hh; exact h rfl)

/-- The semantic error kinds of the core (`helpers.go` error values, the
validator failure of `ValidateBodyWithDetails`, and the database constraint
violations of the `transactions` table). -/
inductive Err where
  | invalidID
  | invalidAmount
  | amountMustBePositive
  | insufficientBalance
  | invalidTransactionType
  | accountNotFound
  | duplicateTransaction
  | foreignKeyViolation
  | validationFailed
deriving DecidableEq, Repr

/-! ## Numeric string parsing (`strconv`) -/

/-- Value of a big-endian digit list. -/
def digitsVal (ds : List ℕ) : ℕ := ds.foldl (fun n d => 10 * n + d) 0

/-- Consume a leading run of decimal digits. -/
def takeDigits : List Char → List ℕ × List Char
  | [] => ([], [])
  | c :: cs =>
    if c.isDigit then
      let p := takeDigits cs
      ((c.toNat - 48) :: p.1, p.2)
    else ([], c :: cs)

/-- Consume an optional leading sign. -/
def takeSign : List Char → ℤ × List Char
  | '+' :: cs => (1, cs)
  | '-' :: cs => (-1, cs)
  | cs => (1, cs)

/-- Exponent part of a float literal (after the `e`/`E`). -/
def applyExponent (mant : ℚ) (r : List Char) : Option ℚ :=
  let s := takeSign r
  let d := takeDigits s.2
  if d.1 = [] ∨ d.2 ≠ [] then none
  else some (mant * (10 : ℚ) ^ (s.1 * (digitsVal d.1 : ℤ)))

/-- Model of Go `strconv.ParseFloat(s, 64)` on decimal literals, with exact
rational semantics. -/
def goParseFloat (s : String) : Option ℚ :=
  let s0 := takeSign s.toList
  let ip := takeDigits s0.2
  let fr : List ℕ × List Char :=
    match ip.2 with
    | '.' :: r => takeDigits r
    | r => ([], r)
  if ip.1 = [] ∧ fr.1 = [] then none
  else
    let mant : ℚ :=
      (s0.1 : ℚ) * ((digitsVal ip.1 : ℚ) + (digitsVal fr.1 : ℚ) / (10 : ℚ) ^ fr.1.length)
    match fr.2 with
    | [] => some mant
    | 'e' :: r => applyExponent mant r
    | 'E' :: r => applyExponent mant r
    | _ => none

/-- Model of Go `strconv.ParseInt(s, 10, 64)` (overflow not modelled). -/
def goParseInt (s : String) : Option ℤ :=
  let s0 := takeSign s.toList
  let d := takeDigits s0.2
  if d.1 = [] ∨ d.2 ≠ [] then none
  else some (s0.1 * (digitsVal d.1 : ℤ))

/-! ## `helpers.go` -/

/-- `helpers.ValidateID`: empty, non-numeric, zero or negative ids are
rejected with `ErrInvalidID`. -/
def ValidateID (userIDStr : String) : Except Err ℤ :=
  if userIDStr = "" then .error .invalidID
  else
    match goParseInt userIDStr with
    | none => .error .invalidID
    | some userID => if userID ≤ 0 then .error .invalidID else .ok userID

/-- `helpers.ParseAmount`: empty / unparseable strings fail with
`ErrInvalidAmount`, non-positive values with `ErrAmountMustBePositive`,
otherwise the value is rounded to 2 decimal places via
`math.Round(amount*100)/100` (half away from zero; on the positive values
that reach this point this agrees with Mathlib's `round`). -/
def ParseAmount (amountStr : String) : Except Err ℚ :=
  if amountStr = "" then .error .invalidAmount
  else
    match goParseFloat amountStr with
    | none => .error .invalidAmount
    | some amount =>
      if amount ≤ 0 then .error .amountMustBePositive
      else .ok ((round (amount * 100) : ℚ) / 100)

/-! ## Data model -/

/-- `accounts` table row / `sqlc.Account` (`inserted_at` omitted). -/
structure Account where
  id : ℤ
  userID : ℤ
  balance : ℚ
  currency : String
  status : String
deriving DecidableEq, Repr

/-- `transactions` table row / `sqlc.Transaction` (`inserted_at` omitted). -/
structure LedgerRow where
  id : String
  accountID : ℤ
  amount : ℚ
  source : String
  transactionType : String
deriving DecidableEq, Repr

/-- `models.Transaction`: the request-level struct the handler fills
(`Amount` is the raw string, `AmountFloat` the parsed value). -/
structure Transaction where
  id : String
  accountID : ℤ
  amount : String
  amountFloat : ℚ
  source : String
  transactionType : String
deriving DecidableEq, Repr

/-- The database state the core touches: the two tables of §3. -/
structure DBState where
  accounts : List Account
  transactions : List LedgerRow
deriving DecidableEq, Repr

/-! ## Store operations (sqlc queries) -/

/-- `sqlc` `GetAccount`: `SELECT` by primary key; a missing row surfaces as
the not-found error class. -/
def getAccount (st : DBState) (accountID : ℤ) : Except Err Account :=
  match st.accounts.find? (fun a => a.id == accountID) with
  | none => .error .accountNotFound
  | some a => .ok a

/-- `api.GetAccountByUser` / sqlc `GetAccountByUser`: look the account up by
owning user id. -/
def getAccountByUser (st : DBState) (userID : ℤ) : Except Err Account :=
  match st.accounts.find? (fun a => a.userID == userID) with
  | none => .error .accountNotFound
  | some a => .ok a

/-- Effect of `UPDATE accounts SET balance = $2 WHERE id = $1` on the
accounts table. -/
def setBalance (accounts : List Account) (accountID : ℤ) (newBalance : ℚ) :
    List Account :=
  accounts.map fun b =>
    if b.id == accountID then { b with balance := newBalance } else b

/-- Modelled from the spec: the `UpdateAccount` SQL query is not under
`src/` (only its caller, which passes `UpdateAccountParams{ID, Balance}`).
Per §4.2 `applyDelta` "persists and returns the updated account", so the
query sets only the `balance` column of the row with the given id and
returns the updated row; a missing row surfaces as not-found. -/
def updateAccount (st : DBState) (accountID : ℤ) (newBalance : ℚ) :
    Except Err (DBState × Account) :=
  match st.accounts.find? (fun a => a.id == accountID) with
  | none => .error .accountNotFound
  | some a =>
    .ok ({ st with accounts := setBalance st.accounts accountID newBalance },
         { a with balance := newBalance })

/-- sqlc `CreateTransaction` (`INSERT INTO transactions ... RETURNING *`):
the `id TEXT PRIMARY KEY` constraint rejects a duplicate id, the
`account_id ... REFERENCES accounts(id)` constraint rejects an unknown
account. -/
def createTransaction (st : DBState) (row : LedgerRow) : Except Err DBState :=
  if st.transactions.any (fun r => r.id == row.id) then .error .duplicateTransaction
  else if st.accounts.any (fun a => a.id == row.accountID) then
    .ok { st with transactions := st.transactions ++ [row] }
  else .error .foreignKeyViolation

/-! ## Transaction handler (`app/api` transactions file) -/

/-- The ledger row built by `createTransactionInTx` from the request-level
struct (`sqlc.CreateTransactionParams`). -/
def rowOf (t : Transaction) : LedgerRow :=
  { id := t.id
    accountID := t.accountID
    amount := t.amountFloat
    source := t.source
    transactionType := t.transactionType }

/-- `createTransactionInTx`: insert the ledger row inside the open unit. -/
def createTransactionInTx (st : DBState) (t : Transaction) :
    Except Err (DBState × LedgerRow) :=
  (createTransaction st (rowOf t)).map (fun st2 => (st2, rowOf t))

/-- `updateBalanceInTx`: read the current balance, branch on the transaction
type (`win`/`deposit` add, `lose`/`withdrawal` subtract with the
non-negativity guard, anything else is `ErrInvalidTransactionType`), and
persist the new balance. -/
def updateBalanceInTx (st : DBState) (accountID : ℤ) (amount : ℚ)
    (transactionType : String) : Except Err (DBState × Account) :=
  match getAccount st accountID with
  | .error e => .error e
  | .ok account =>
    let currentBalance := account.balance
    if transactionType = "win" ∨ transactionType = "deposit" then
      updateAccount st accountID (currentBalance + amount)
    else if transactionType = "lose" ∨ transactionType = "withdrawal" then
      let newBalance := currentBalance - amount
      if newBalance < 0 then .error .insufficientBalance
      else updateAccount st accountID newBalance
    else .error .invalidTransactionType

/-- `runInTx`: run the unit of work against the state; commit its result on
success, roll back to the starting state on error (the error is returned to
the caller alongside the rolled-back state). -/
def runInTx (st : DBState) (fn : DBState → Except Err DBState) :
    DBState × Option Err :=
  match fn st with
  | .ok st2 => (st2, none)
  | .error e => (st, some e)

/-- The closure `CreateTransactionHandler` passes to `runInTx`: append the
ledger row, then update the balance of the resolved account, inside one
atomic unit. -/
def txUnit (accountID : ℤ) (t : Transaction) (qs : DBState) : Except Err DBState :=
  match createTransactionInTx qs t with
  | .error e => .error e
  | .ok p =>
    match updateBalanceInTx p.1 accountID t.amountFloat t.transactionType with
    | .error e => .error e
    | .ok p2 => .ok p2.1

/-- Decoded JSON body of the transaction request: `encoding/json` leaves a
field of the pre-filled struct unchanged when the key is absent, so each
field is optional. (`TransactionType` is the json key `state`.) -/
structure Body where
  id : Option String
  accountID : Option ℤ
  amount : Option String
  source : Option String
  transactionType : Option String
deriving DecidableEq, Repr

/-- One inbound request: the `{userId}` path variable, the `Source-Type`
header, and the JSON body. -/
structure Request where
  userIDStr : String
  sourceHeader : String
  body : Body
deriving DecidableEq, Repr

/-- The struct the handler pre-fills before decoding the body into it:
`models.Transaction{AccountID: account.ID, Source: source}`. -/
def initTx (account : Account) (source : String) : Transaction :=
  { id := ""
    accountID := account.id
    amount := ""
    amountFloat := 0
    source := source
    transactionType := "" }

/-- `json.Decode` into the pre-filled struct: body keys overwrite, absent
keys keep the pre-filled values. -/
def decodeBody (t : Transaction) (b : Body) : Transaction :=
  { id := b.id.getD t.id
    accountID := b.accountID.getD t.accountID
    amount := b.amount.getD t.amount
    amountFloat := t.amountFloat
    source := b.source.getD t.source
    transactionType := b.transactionType.getD t.transactionType }

/-- The request-level struct after body decoding: the pre-filled struct with
the body fields written over it. -/
def decoded (account : Account) (req : Request) : Transaction :=
  decodeBody (initTx account req.sourceHeader) req.body

/-- The request-level struct the atomic unit receives: the decoded struct
with the parsed amount added (`validateAndParseTransactionAmount`). -/
def finalTx (account : Account) (req : Request) (amount : ℚ) : Transaction :=
  { decoded account req with amountFloat := amount }

/-- The validator rules of `models.Transaction`
(`required` on every field, `oneof=game server payment` on the source,
`oneof=win lose` on the type), as checked by `ValidateBodyWithDetails`. -/
def validTransaction (t : Transaction) : Bool :=
  t.id != "" && t.accountID != 0 && t.amount != "" &&
  (t.source == "game" || t.source == "server" || t.source == "payment") &&
  (t.transactionType == "win" || t.transactionType == "lose")

/-- The success payload of `CreateTransactionHandler`
(`user_account_id`, `transaction_id`, `amount`, `type`, `source`). -/
structure TxSuccess where
  userAccountID : ℤ
  transactionID : String
  amount : ℚ
  transactionType : String
  source : String
deriving DecidableEq, Repr

/-- `CreateTransactionHandler`, post-HTTP: validate the path id, resolve the
account by user, pre-fill and decode the body, validate it, parse the
amount, then run ledger append + balance update in one atomic unit.  The
returned state is the database state after the call (unchanged on every
error path), paired with the response. -/
def createTransactionHandler (st : DBState) (req : Request) :
    DBState × Except Err TxSuccess :=
  match ValidateID req.userIDStr with
  | .error e => (st, .error e)
  | .ok userID =>
    match getAccountByUser st userID with
    | .error e => (st, .error e)
    | .ok account =>
      if validTransaction (decoded account req) then
        match ParseAmount (decoded account req).amount with
        | .error e => (st, .error e)
        | .ok amount =>
          match runInTx st (txUnit account.id (finalTx account req amount)) with
          | (st2, some e) => (st2, .error e)
          | (st2, none) =>
            (st2, .ok { userAccountID := userID
                        transactionID := (decoded account req).id
                        amount := amount
                        transactionType := (decoded account req).transactionType
                        source := (decoded account req).source })
      else (st, .error .validationFailed)

/-- Final state after one request (the response discarded). -/
def applyRequest (st : DBState) (req : Request) : DBState :=
  (createTransactionHandler st req).1

/-- Final state after a sequence of requests. -/
def applySeq (st : DBState) : List Request → DBState
  | [] => st
  | r :: rs => applySeq (applyRequest st r) rs

/-! ## Observations used by the claims -/

/-- Balance of the account with the given id, when it exists. -/
def balanceOf (st : DBState) (accountID : ℤ) : Option ℚ :=
  (st.accounts.find? (fun a => a.id == accountID)).map (fun a => a.balance)

/-- Signed amount of a committed ledger row: `+amount` for `win`,
`-amount` for `lose` (every row the handler commits has one of these two
types). -/
def signedAmount (r : LedgerRow) : ℚ :=
  if r.transactionType = "win" then r.amount
  else if r.transactionType = "lose" then -r.amount
  else 0

/-- Sum of the signed amounts of the rows referencing the given account. -/
def ledgerSum (rows : List LedgerRow) (accountID : ℤ) : ℚ :=
  ((rows.filter (fun r => r.accountID == accountID)).map signedAmount).sum

/-- The projection of an account that the transaction core never writes:
everything but the balance. -/
def frameOf (a : Account) : ℤ × ℤ × String × String :=
  (a.id, a.userID, a.currency, a.status)

/-- Well-formed database state: account ids are distinct (primary key) and
balances are non-negative. -/
def WF (st : DBState) : Prop :=
  (st.accounts.map Account.id).Nodup ∧ ∀ a ∈ st.accounts, 0 ≤ a.balance

instance (st : DBState) : Decidable (WF st) := by
  unfold WF; infer_instance

/-- Success shape of one handler call: the resolution, validation and
parsing facts together with the exact output state and payload. -/
def OkShape (st : DBState) (req : Request) : Prop :=
  ∃ userID account amount a nb,
    ValidateID req.userIDStr = .ok userID ∧
    getAccountByUser st userID = .ok account ∧
    validTransaction (decoded account req) = true ∧
    ParseAmount (decoded account req).amount = .ok amount ∧
    getAccount st account.id = .ok a ∧
    (st.transactions.any fun r => r.id == (decoded account req).id) = false ∧
    (((decoded account req).transactionType = "win" ∧ nb = a.balance + amount) ∨
     ((decoded account req).transactionType = "lose" ∧
        nb = a.balance - amount ∧ 0 ≤ nb)) ∧
    createTransactionHandler st req =
      ({ accounts := setBalance st.accounts account.id nb,
         transactions := st.transactions ++ [rowOf (finalTx account req amount)] },
       .ok { userAccountID := userID
             transactionID := (decoded account req).id
             amount := amount
             transactionType := (decoded account req).transactionType
             source := (decoded account req).source })

/-- The request does not override the pre-filled account id with a different
value: its body either omits `account_id` or supplies the id of the account
its path user id resolves to. -/
def GoodReq (st : DBState) (req : Request) : Prop :=
  ∀ acct ∈ st.accounts, ValidateID req.userIDStr = .ok acct.userID →
    req.body.accountID = none ∨ req.body.accountID = some acct.id

instance (st : DBState) (req : Request) : Decidable (GoodReq st req) := by
  unfold GoodReq; infer_instance

/-! ## Concrete fixtures

States and requests used to instantiate the theorems below on concrete
inputs (they mirror the seeded accounts of the migrations: one account per
user, opened with balance 0). -/

/-- Accounts 1 and 2, owned by users 1 and 2, both with balance 0. -/
def baseState : DBState :=
  { accounts := [⟨1, 1, 0, "EUR", "active"⟩, ⟨2, 2, 0, "EUR", "active"⟩]
    transactions := [] }

/-- `baseState` after a committed `win 50.00` with id `t1` on account 1. -/
def dupState : DBState :=
  { accounts := [⟨1, 1, 50, "EUR", "active"⟩, ⟨2, 2, 0, "EUR", "active"⟩]
    transactions := [⟨"t1", 1, 50, "game", "win"⟩] }

/-- One account with id 5 owned by user 1, balance `bal`. -/
def oneAcct (bal : ℚ) : DBState :=
  { accounts := [⟨5, 1, bal, "EUR", "active"⟩], transactions := [] }

/-- A `win` request by user 1 that does not override the account id. -/
def reqWin (idv amt : String) : Request :=
  { userIDStr := "1", sourceHeader := "game"
    body := { id := some idv, accountID := none, amount := some amt,
              source := none, transactionType := some "win" } }

/-- A `lose` request by user 1 that does not override the account id. -/
def reqLose (idv amt : String) : Request :=
  { userIDStr := "1", sourceHeader := "game"
    body := { id := some idv, accountID := none, amount := some amt,
              source := none, transactionType := some "lose" } }

/-- A `win` request by user 1 whose body supplies `account_id = 2`,
overriding the pre-filled id of the resolved account 1. -/
def reqSpoof (idv amt : String) : Request :=
  { userIDStr := "1", sourceHeader := "game"
    body := { id := some idv, accountID := some 2, amount := some amt,
              source := none, transactionType := some "win" } }

/-- A request by a user with no account, carrying an unparseable amount. -/
def reqNoAcct : Request :=
  { userIDStr := "9", sourceHeader := "game"
    body := { id := some "t9", accountID := none, amount := some "abc",
              source := none, transactionType := some "win" } }

/-! ## Helper lemmas -/

theorem getAccount_eq_find {st : DBState} {accountID : ℤ} {a : Account} :
    getAccount st accountID = .ok a ↔
      st.accounts.find? (fun x => x.id == accountID) = some a := by
  unfold getAccount
  cases hf : st.accounts.find? (fun x => x.id == accountID) <;> simp

theorem getAccount_ok_mem {st : DBState} {accountID : ℤ} {a : Account}
    (h : getAccount st accountID = .ok a) : a ∈ st.accounts ∧ a.id = accountID := by
  rw [getAccount_eq_find] at h
  refine ⟨List.mem_of_find?_eq_some h, ?_⟩
  simpa using List.find?_some h

theorem getAccountByUser_ok_mem {st : DBState} {userID : ℤ} {a : Account}
    (h : getAccountByUser st userID = .ok a) :
    a ∈ st.accounts ∧ a.userID = userID := by
  unfold getAccountByUser at h
  cases hf : st.accounts.find? (fun x => x.userID == userID) with
  | none => rw [hf] at h; simp at h
  | some b =>
    rw [hf] at h
    simp only [Except.ok.injEq] at h
    subst h
    refine ⟨List.mem_of_find?_eq_some hf, ?_⟩
    simpa using List.find?_some hf

theorem parseAmount_nonneg {s : String} {q : ℚ} (h : ParseAmount s = .ok q) :
    0 ≤ q := by
  unfold ParseAmount at h
  split at h
  · simp at h
  · split at h
    · simp at h
    · rename_i amount _
      split at h
      · simp at h
      · rename_i ha
        simp only [Except.ok.injEq] at h
        push_neg at ha
        have hr : (0 : ℤ) ≤ round (amount * 100) := by
          rw [round_eq]
          exact Int.le_floor.mpr (by push_cast; linarith)
        have hr' : (0 : ℚ) ≤ (round (amount * 100) : ℚ) := by exact_mod_cast hr
        rw [← h]
        positivity

theorem setBalance_frame (l : List Account) (k : ℤ) (nb : ℚ) :
    (setBalance l k nb).map frameOf = l.map frameOf := by
  unfold setBalance
  rw [List.map_map]
  apply List.map_congr_left
  intro a _
  by_cases h : a.id == k <;> simp [Function.comp, frameOf, h]

theorem find?_setBalance (l : List Account) (A k : ℤ) (nb : ℚ) :
    (setBalance l A nb).find? (fun a => a.id == k)
      = (l.find? (fun a => a.id == k)).map
          (fun a => if a.id == A then { a with balance := nb } else a) := by
  unfold setBalance
  rw [List.find?_map]
  have hcomp : ((fun a : Account => a.id == k) ∘ fun b : Account =>
      if b.id == A then { b with balance := nb } else b)
        = fun a : Account => a.id == k := by
    funext a
    by_cases h : a.id == A <;> simp [Function.comp, h]
  rw [hcomp]

theorem balanceOf_setBalance (acs : List Account) (ts ts' : List LedgerRow)
    (A k : ℤ) (nb : ℚ) :
    balanceOf ⟨setBalance acs A nb, ts'⟩ k
      = if k = A then (balanceOf ⟨acs, ts⟩ k).map (fun _ => nb)
        else balanceOf ⟨acs, ts⟩ k := by
  unfold balanceOf
  simp only
  rw [find?_setBalance]
  cases hf : acs.find? (fun a => a.id == k) with
  | none => by_cases hk : k = A <;> simp [hk]
  | some a =>
    have ha : a.id = k := by simpa using List.find?_some hf
    by_cases hk : k = A
    · subst hk; simp [ha]
    · simp [ha, hk]

theorem ledgerSum_append (r1 r2 : List LedgerRow) (k : ℤ) :
    ledgerSum (r1 ++ r2) k = ledgerSum r1 k + ledgerSum r2 k := by
  unfold ledgerSum
  rw [List.filter_append, List.map_append, List.sum_append]

theorem ledgerSum_nil (k : ℤ) : ledgerSum [] k = 0 := rfl

theorem ledgerSum_single (row : LedgerRow) (k : ℤ) :
    ledgerSum [row] k = if row.accountID = k then signedAmount row else 0 := by
  by_cases h : row.accountID = k <;> simp [ledgerSum, List.filter_cons, h]

theorem getAccount_congr {st1 st2 : DBState} (h : st1.accounts = st2.accounts)
    (k : ℤ) : getAccount st1 k = getAccount st2 k := by
  unfold getAccount; rw [h]

theorem updateAccount_ok_inv {st : DBState} {accountID : ℤ} {nb : ℚ}
    {st' : DBState} {a' : Account}
    (h : updateAccount st accountID nb = .ok (st', a')) :
    ∃ a, getAccount st accountID = .ok a ∧
      st' = { st with accounts := setBalance st.accounts accountID nb } ∧
      a' = { a with balance := nb } := by
  unfold updateAccount at h
  split at h
  · simp at h
  · rename_i a hfind
    simp only [Except.ok.injEq, Prod.mk.injEq] at h
    exact ⟨a, getAccount_eq_find.mpr hfind, h.1.symm, h.2.symm⟩

theorem updateBalanceInTx_ok_inv {st : DBState} {accountID : ℤ} {amount : ℚ}
    {ttype : String} {st' : DBState} {a' : Account}
    (h : updateBalanceInTx st accountID amount ttype = .ok (st', a')) :
    ∃ a nb, getAccount st accountID = .ok a ∧
      st' = { st with accounts := setBalance st.accounts accountID nb } ∧
      a' = { a with balance := nb } ∧
      (((ttype = "win" ∨ ttype = "deposit") ∧ nb = a.balance + amount) ∨
       ((ttype = "lose" ∨ ttype = "withdrawal") ∧
          nb = a.balance - amount ∧ 0 ≤ nb)) := by
  unfold updateBalanceInTx at h
  split at h
  · simp at h
  · rename_i account heq
    split at h
    · rename_i h1
      obtain ⟨a, hget, hst, ha⟩ := updateAccount_ok_inv h
      have haa : account = a := by
        rw [heq] at hget; exact (Except.ok.injEq _ _).mp hget
      subst haa
      exact ⟨account, account.balance + amount, hget, hst, ha, .inl ⟨h1, rfl⟩⟩
    · split at h
      · rename_i h1 h2
        dsimp only at h
        split at h
        · simp at h
        · rename_i h3
          obtain ⟨a, hget, hst, ha⟩ := updateAccount_ok_inv h
          have haa : account = a := by
            rw [heq] at hget; exact (Except.ok.injEq _ _).mp hget
          subst haa
          exact ⟨account, account.balance - amount, hget, hst, ha,
            .inr ⟨h2, rfl, le_of_not_lt h3⟩⟩
      · simp at h

theorem runInTx_of_error {st : DBState} {fn : DBState → Except Err DBState}
    {e : Err} (h : fn st = .error e) : runInTx st fn = (st, some e) := by
  simp [runInTx, h]

theorem runInTx_of_ok {st st' : DBState} {fn : DBState → Except Err DBState}
    (h : fn st = .ok st') : runInTx st fn = (st', none) := by
  simp [runInTx, h]

theorem createTransaction_dup {st : DBState} {row : LedgerRow}
    (h : (st.transactions.any fun r => r.id == row.id) = true) :
    createTransaction st row = .error .duplicateTransaction := by
  simp [createTransaction, h]

theorem createTransaction_ok {st : DBState} {row : LedgerRow}
    (h1 : (st.transactions.any fun r => r.id == row.id) = false)
    (h2 : (st.accounts.any fun a => a.id == row.accountID) = true) :
    createTransaction st row
      = .ok { st with transactions := st.transactions ++ [row] } := by
  simp [createTransaction, h1, h2]

theorem createTransactionInTx_ok_inv {st : DBState} {t : Transaction}
    {stMid : DBState} {row : LedgerRow}
    (h : createTransactionInTx st t = .ok (stMid, row)) :
    createTransaction st (rowOf t) = .ok stMid ∧ row = rowOf t := by
  unfold createTransactionInTx at h
  cases hc : createTransaction st (rowOf t) with
  | error e => rw [hc] at h; simp [Except.map] at h
  | ok st2 =>
    rw [hc] at h
    simp only [Except.map, Except.ok.injEq, Prod.mk.injEq] at h
    exact ⟨by rw [h.1], h.2.symm⟩

theorem txUnit_ok_inv {A : ℤ} {t : Transaction} {qs st' : DBState}
    (h : txUnit A t qs = .ok st') :
    ∃ stMid a2, createTransactionInTx qs t = .ok (stMid, rowOf t) ∧
      updateBalanceInTx stMid A t.amountFloat t.transactionType = .ok (st', a2) := by
  unfold txUnit at h
  split at h
  · simp at h
  · rename_i p hcreate
    split at h
    · simp at h
    · rename_i p2 hupd
      obtain ⟨hc, hrow⟩ := @createTransactionInTx_ok_inv qs t p.1 p.2
        (by rw [← hcreate])
      simp only [Except.ok.injEq] at h
      refine ⟨p.1, p2.2, ?_, ?_⟩
      · rw [hcreate, ← hrow, Prod.mk.eta]
      · rw [← h, Prod.mk.eta]; exact hupd

theorem createTransaction_ok_inv {st : DBState} {row : LedgerRow} {st2 : DBState}
    (h : createTransaction st row = .ok st2) :
    (st.transactions.any fun r => r.id == row.id) = false ∧
    (st.accounts.any fun a => a.id == row.accountID) = true ∧
    st2 = { st with transactions := st.transactions ++ [row] } := by
  unfold createTransaction at h
  split at h
  · simp at h
  · rename_i h1
    split at h
    · rename_i h2
      simp only [Except.ok.injEq] at h
      exact ⟨by simpa using h1, h2, h.symm⟩
    · simp at h

theorem handler_eq_id_error {st : DBState} {req : Request} {e : Err}
    (hv : ValidateID req.userIDStr = .error e) :
    createTransactionHandler st req = (st, .error e) := by
  simp [createTransactionHandler, hv]

theorem handler_eq_account_error {st : DBState} {req : Request} {userID : ℤ}
    {e : Err} (hv : ValidateID req.userIDStr = .ok userID)
    (ha : getAccountByUser st userID = .error e) :
    createTransactionHandler st req = (st, .error e) := by
  simp [createTransactionHandler, hv, ha]

theorem handler_eq_invalid {st : DBState} {req : Request} {userID : ℤ}
    {account : Account} (hv : ValidateID req.userIDStr = .ok userID)
    (ha : getAccountByUser st userID = .ok account)
    (hval : validTransaction (decoded account req) = false) :
    createTransactionHandler st req = (st, .error .validationFailed) := by
  simp [createTransactionHandler, hv, ha, hval]

theorem handler_eq_amount_error {st : DBState} {req : Request} {userID : ℤ}
    {account : Account} {e : Err} (hv : ValidateID req.userIDStr = .ok userID)
    (ha : getAccountByUser st userID = .ok account)
    (hval : validTransaction (decoded account req) = true)
    (hamt : ParseAmount (decoded account req).amount = .error e) :
    createTransactionHandler st req = (st, .error e) := by
  simp [createTransactionHandler, hv, ha, hval, hamt]

theorem handler_eq_unit_error {st : DBState} {req : Request} {userID : ℤ}
    {account : Account} {amount : ℚ} {e : Err}
    (hv : ValidateID req.userIDStr = .ok userID)
    (ha : getAccountByUser st userID = .ok account)
    (hval : validTransaction (decoded account req) = true)
    (hamt : ParseAmount (decoded account req).amount = .ok amount)
    (hunit : txUnit account.id (finalTx account req amount) st = .error e) :
    createTransactionHandler st req = (st, .error e) := by
  simp [createTransactionHandler, hv, ha, hval, hamt, runInTx_of_error hunit]

theorem handler_eq_unit_ok {st : DBState} {req : Request} {userID : ℤ}
    {account : Account} {amount : ℚ} {st' : DBState}
    (hv : ValidateID req.userIDStr = .ok userID)
    (ha : getAccountByUser st userID = .ok account)
    (hval : validTransaction (decoded account req) = true)
    (hamt : ParseAmount (decoded account req).amount = .ok amount)
    (hunit : txUnit account.id (finalTx account req amount) st = .ok st') :
    createTransactionHandler st req =
      (st', .ok { userAccountID := userID
                  transactionID := (decoded account req).id
                  amount := amount
                  transactionType := (decoded account req).transactionType
                  source := (decoded account req).source }) := by
  simp [createTransactionHandler, hv, ha, hval, hamt, runInTx_of_ok hunit]

theorem valid_type_win_or_lose {t : Transaction}
    (h : validTransaction t = true) :
    t.transactionType = "win" ∨ t.transactionType = "lose" := by
  simp only [validTransaction, Bool.and_eq_true, Bool.or_eq_true, beq_iff_eq] at h
  exact h.2

theorem handler_cases (st : DBState) (req : Request) :
    (∃ e, createTransactionHandler st req = (st, .error e)) ∨ OkShape st req := by
  cases hv : ValidateID req.userIDStr with
  | error e => exact .inl ⟨e, handler_eq_id_error hv⟩
  | ok userID =>
    cases ha : getAccountByUser st userID with
    | error e => exact .inl ⟨e, handler_eq_account_error hv ha⟩
    | ok account =>
      cases hval : validTransaction (decoded account req) with
      | false => exact .inl ⟨.validationFailed, handler_eq_invalid hv ha hval⟩
      | true =>
        cases hamt : ParseAmount (decoded account req).amount with
        | error e => exact .inl ⟨e, handler_eq_amount_error hv ha hval hamt⟩
        | ok amount =>
          cases hunit : txUnit account.id (finalTx account req amount) st with
          | error e => exact .inl ⟨e, handler_eq_unit_error hv ha hval hamt hunit⟩
          | ok st' =>
            right
            obtain ⟨stMid, a2, hcreate, hupd⟩ := txUnit_ok_inv hunit
            obtain ⟨hct, -⟩ := createTransactionInTx_ok_inv hcreate
            obtain ⟨hdup, hfk, hstMid⟩ := createTransaction_ok_inv hct
            obtain ⟨a, nb, hget, hst', ha', hbranch⟩ := updateBalanceInTx_ok_inv hupd
            have hacceq : stMid.accounts = st.accounts := by rw [hstMid]
            have hgacc : getAccount st account.id = .ok a := by
              rw [← getAccount_congr hacceq account.id]; exact hget
            have htype := valid_type_win_or_lose hval
            refine ⟨userID, account, amount, a, nb, hv, ha, hval, hamt, hgacc,
              hdup, ?_, ?_⟩
            · have hft : (finalTx account req amount).transactionType
                  = (decoded account req).transactionType := rfl
              rcases hbranch with ⟨h1, hnb⟩ | ⟨h1, hnb, hnn⟩
              · left
                refine ⟨?_, hnb⟩
                rcases htype with hw | hl
                · exact hw
                · exfalso
                  rw [hft, hl] at h1
                  rcases h1 with h1 | h1 <;> exact absurd h1 (by decide)
              · right
                refine ⟨?_, hnb, hnn⟩
                rcases htype with hw | hl
                · exfalso
                  rw [hft, hw] at h1
                  rcases h1 with h1 | h1 <;> exact absurd h1 (by decide)
                · exact hl
            · rw [handler_eq_unit_ok hv ha hval hamt hunit, hst', hstMid]

theorem setBalance_ids (l : List Account) (k : ℤ) (nb : ℚ) :
    (setBalance l k nb).map Account.id = l.map Account.id := by
  unfold setBalance
  rw [List.map_map]
  apply List.map_congr_left
  intro a _
  by_cases h : a.id == k <;> simp [Function.comp, h]

theorem decoded_accountID_of_good {st : DBState} {req : Request} {userID : ℤ}
    {account : Account} (hgood : GoodReq st req)
    (hv : ValidateID req.userIDStr = .ok userID)
    (ha : getAccountByUser st userID = .ok account) :
    (decoded account req).accountID = account.id := by
  obtain ⟨hmem, huser⟩ := getAccountByUser_ok_mem ha
  have h := hgood account hmem (by rw [huser]; exact hv)
  rcases h with h | h <;>
    simp [decoded, decodeBody, initTx, h]

theorem goodReq_transfer {st st' : DBState}
    (hf : st'.accounts.map frameOf = st.accounts.map frameOf) {req : Request}
    (h : GoodReq st req) : GoodReq st' req := by
  intro acct hm hvid
  have hmm : frameOf acct ∈ st'.accounts.map frameOf :=
    List.mem_map_of_mem _ hm
  rw [hf] at hmm
  obtain ⟨acct0, hm0, hfr⟩ := List.mem_map.mp hmm
  have hid : acct0.id = acct.id := congrArg (fun p => p.1) hfr
  have huid : acct0.userID = acct.userID := congrArg (fun p => p.2.1) hfr
  rcases h acct0 hm0 (by rw [huid]; exact hvid) with h0 | h0
  · exact .inl h0
  · right; rw [h0, hid]

theorem applyRequest_step (st : DBState) (req : Request) (hwf : WF st)
    (hgood : GoodReq st req) :
    ∃ rest, (applyRequest st req).transactions = st.transactions ++ rest ∧
      (applyRequest st req).accounts.map frameOf = st.accounts.map frameOf ∧
      (∀ k, balanceOf (applyRequest st req) k
          = (balanceOf st k).map (fun b => b + ledgerSum rest k)) ∧
      WF (applyRequest st req) := by
  rcases handler_cases st req with ⟨e, heq⟩ | hok
  · refine ⟨[], ?_, ?_, ?_, ?_⟩ <;>
      simp only [applyRequest, heq] <;>
      first
        | simp [ledgerSum_nil]
        | exact hwf
  · obtain ⟨userID, account, amount, a, nb, hv, ha, hval, hamt, hgacc, hdup,
      hbranch, heq⟩ := hok
    have hra : (rowOf (finalTx account req amount)).accountID = account.id :=
      decoded_accountID_of_good hgood hv ha
    have hamnn : 0 ≤ amount := parseAmount_nonneg hamt
    have habal : 0 ≤ a.balance := hwf.2 a (getAccount_ok_mem hgacc).1
    have hnbnn : 0 ≤ nb := by
      rcases hbranch with ⟨-, hnb⟩ | ⟨-, hnb, hnn⟩
      · rw [hnb]; positivity
      · exact hnn
    refine ⟨[rowOf (finalTx account req amount)], ?_, ?_, ?_, ?_⟩
    · simp only [applyRequest, heq]
    · simp only [applyRequest, heq]
      exact setBalance_frame _ _ _
    · intro k
      simp only [applyRequest, heq]
      rw [show ({ accounts := setBalance st.accounts account.id nb,
                  transactions := st.transactions
                    ++ [rowOf (finalTx account req amount)] } : DBState)
            = ⟨setBalance st.accounts account.id nb,
               st.transactions ++ [rowOf (finalTx account req amount)]⟩ from rfl]
      rw [balanceOf_setBalance st.accounts st.transactions _ account.id k nb]
      have hbst : balanceOf st account.id = some a.balance := by
        unfold balanceOf
        rw [getAccount_eq_find.mp hgacc]
        rfl
      by_cases hk : k = account.id
      · subst hk
        rw [if_pos rfl, hbst]
        rw [ledgerSum_single, if_pos hra]
        have hsa : signedAmount (rowOf (finalTx account req amount))
            = nb - a.balance := by
          rcases hbranch with ⟨hty, hnb⟩ | ⟨hty, hnb, -⟩ <;>
            simp [signedAmount, rowOf, finalTx, hty, hnb]
        rw [hsa]
        simp only [Option.map_some']
        congr 1
        ring
      · rw [if_neg hk]
        rw [ledgerSum_single, if_neg (by rw [hra]; exact fun hh => hk hh.symm)]
        cases balanceOf st k <;> simp
    · constructor
      · simp only [applyRequest, heq]
        rw [setBalance_ids]
        exact hwf.1
      · simp only [applyRequest, heq]
        intro a' ha'
        obtain ⟨b, hb, hba⟩ := List.mem_map.mp ha'
        by_cases hbid : b.id == account.id
        · rw [← hba]; simpa [setBalance, hbid] using hnbnn
        · rw [← hba]
          simpa [setBalance, hbid] using hwf.2 b hb

theorem updateBalanceInTx_win_eq {st : DBState} {accountID : ℤ} {amount : ℚ}
    {ttype : String} {a : Account} (hacct : getAccount st accountID = .ok a)
    (hty : ttype = "win" ∨ ttype = "deposit") :
    updateBalanceInTx st accountID amount ttype
      = .ok ({ st with
                accounts := setBalance st.accounts accountID (a.balance + amount) },
             { a with balance := a.balance + amount }) := by
  unfold updateBalanceInTx
  rw [hacct]
  dsimp only
  rw [if_pos hty]
  unfold updateAccount
  rw [getAccount_eq_find.mp hacct]

theorem updateBalanceInTx_lose_eq {st : DBState} {accountID : ℤ} {amount : ℚ}
    {ttype : String} {a : Account} (hacct : getAccount st accountID = .ok a)
    (hty : ttype = "lose" ∨ ttype = "withdrawal") :
    updateBalanceInTx st accountID amount ttype
      = if a.balance - amount < 0 then .error .insufficientBalance
        else .ok ({ st with
                     accounts := setBalance st.accounts accountID (a.balance - amount) },
                  { a with balance := a.balance - amount }) := by
  unfold updateBalanceInTx
  rw [hacct]
  dsimp only
  have h1 : ¬(ttype = "win" ∨ ttype = "deposit") := by
    rcases hty with rfl | rfl <;> decide
  rw [if_neg h1, if_pos hty]
  by_cases h : a.balance - amount < 0
  · rw [if_pos h, if_pos h]
  · rw [if_neg h, if_neg h]
    unfold updateAccount
    rw [getAccount_eq_find.mp hacct]

theorem updateBalanceInTx_invalid_eq {st : DBState} {accountID : ℤ}
    {amount : ℚ} {ttype : String} {a : Account}
    (hacct : getAccount st accountID = .ok a)
    (h1 : ¬(ttype = "win" ∨ ttype = "deposit"))
    (h2 : ¬(ttype = "lose" ∨ ttype = "withdrawal")) :
    updateBalanceInTx st accountID amount ttype
      = .error .invalidTransactionType := by
  unfold updateBalanceInTx
  rw [hacct]
  dsimp only
  rw [if_neg h1, if_neg h2]

theorem createTransactionInTx_eq {st : DBState} {t : Transaction}
    (hdup : (st.transactions.any fun r => r.id == (rowOf t).id) = false)
    (hfk : (st.accounts.any fun a => a.id == (rowOf t).accountID) = true) :
    createTransactionInTx st t
      = .ok ({ st with transactions := st.transactions ++ [rowOf t] }, rowOf t) := by
  unfold createTransactionInTx
  rw [createTransaction_ok hdup hfk]
  rfl

theorem applyRequest_transactions (st : DBState) (req : Request) :
    ∃ rest, (applyRequest st req).transactions = st.transactions ++ rest := by
  rcases handler_cases st req with ⟨e, heq⟩ | hok
  · exact ⟨[], by simp [applyRequest, heq]⟩
  · obtain ⟨userID, account, amount, a, nb, hv, ha, hval, hamt, hgacc, hdup,
      hbranch, heq⟩ := hok
    exact ⟨[rowOf (finalTx account req amount)], by simp [applyRequest, heq]⟩

theorem applySeq_transactions (reqs : List Request) : ∀ st : DBState,
    ∃ rest, (applySeq st reqs).transactions = st.transactions ++ rest := by
  induction reqs with
  | nil => intro st; exact ⟨[], by simp [applySeq]⟩
  | cons r rs ih =>
    intro st
    obtain ⟨rest1, h1⟩ := applyRequest_transactions st r
    obtain ⟨rest2, h2⟩ := ih (applyRequest st r)
    refine ⟨rest1 ++ rest2, ?_⟩
    show (applySeq (applyRequest st r) rs).transactions = _
    rw [h2, h1, List.append_assoc]

theorem applySeq_inv (reqs : List Request) : ∀ st : DBState, WF st →
    (∀ req ∈ reqs, GoodReq st req) →
    ∃ rest, (applySeq st reqs).transactions = st.transactions ++ rest ∧
      (applySeq st reqs).accounts.map frameOf = st.accounts.map frameOf ∧
      (∀ k, balanceOf (applySeq st reqs) k
          = (balanceOf st k).map (fun b => b + ledgerSum rest k)) ∧
      WF (applySeq st reqs) := by
  induction reqs with
  | nil =>
    intro st hwf _
    refine ⟨[], by simp [applySeq], rfl, ?_, hwf⟩
    intro k
    rw [show applySeq st [] = st from rfl]
    cases balanceOf st k <;> simp [ledgerSum_nil]
  | cons r rs ih =>
    intro st hwf hgood
    obtain ⟨rest1, ht1, hf1, hb1, hwf1⟩ :=
      applyRequest_step st r hwf (hgood r (by simp))
    have hgood1 : ∀ req ∈ rs, GoodReq (applyRequest st r) req := fun req hm =>
      goodReq_transfer hf1 (hgood req (List.mem_cons_of_mem r hm))
    obtain ⟨rest2, ht2, hf2, hb2, hwf2⟩ := ih (applyRequest st r) hwf1 hgood1
    refine ⟨rest1 ++ rest2, ?_, ?_, ?_, ?_⟩
    · show (applySeq (applyRequest st r) rs).transactions = _
      rw [ht2, ht1, List.append_assoc]
    · show (applySeq (applyRequest st r) rs).accounts.map frameOf = _
      rw [hf2, hf1]
    · intro k
      show balanceOf (applySeq (applyRequest st r) rs) k = _
      rw [hb2 k, hb1 k, ledgerSum_append]
      cases balanceOf st k <;> simp [add_assoc]
    · exact hwf2

theorem find?_id_of_mem {l : List Account} (hnd : (l.map Account.id).Nodup)
    {a : Account} (ha : a ∈ l) : l.find? (fun x => x.id == a.id) = some a := by
  induction l with
  | nil => cases ha
  | cons b t ih =>
    rw [List.map_cons, List.nodup_cons] at hnd
    rcases List.mem_cons.mp ha with rfl | hat
    · simp [List.find?_cons]
    · have hne : b.id ≠ a.id := fun hh =>
        hnd.1 (hh ▸ List.mem_map_of_mem Account.id hat)
      have hb : (b.id == a.id) = false := by simpa using hne
      simp only [List.find?_cons, hb]
      exact ih hnd.2 hat

theorem balanceOf_eq_of_mem {st : DBState}
    (hnd : (st.accounts.map Account.id).Nodup) {a : Account}
    (ha : a ∈ st.accounts) : balanceOf st a.id = some a.balance := by
  unfold balanceOf
  rw [find?_id_of_mem hnd ha]
  rfl

/-! ## Claims -/

/-- **C2.** Every apply of a transaction request is all-or-nothing: on any
error the handler leaves the database state exactly as it was before the
call, and on success the output state has exactly one new ledger row
appended together with the balance update, committed by the same atomic
unit — a state with the row written but no balance written (or vice versa)
is never the result. -/
theorem c2_atomic_commit (st : DBState) (req : Request) :
    (∀ e, (createTransactionHandler st req).2 = .error e →
        (createTransactionHandler st req).1 = st) ∧
    (∀ out, (createTransactionHandler st req).2 = .ok out →
        ∃ row accountID nb,
          (createTransactionHandler st req).1
            = { accounts := setBalance st.accounts accountID nb,
                transactions := st.transactions ++ [row] }) := by
  rcases handler_cases st req with ⟨e', heq⟩ | hok
  · refine ⟨fun e h => by rw [heq], fun out h => ?_⟩
    rw [heq] at h
    simp at h
  · obtain ⟨userID, account, amount, a, nb, hv, ha, hval, hamt, hgacc, hdup,
      hbranch, heq⟩ := hok
    refine ⟨fun e h => ?_, fun out h => ?_⟩
    · rw [heq] at h; simp at h
    · exact ⟨rowOf (finalTx account req amount), account.id, nb, by rw [heq]⟩

/-- Witness for C2: a `lose 10.00` on a zero-balance account rolls back to
the unchanged state, and a committed `win 5` yields the appended row plus
the balance write. -/
theorem c2_witness :
    (createTransactionHandler baseState (reqLose "tL" "10.00")).1
        = baseState ∧
    ∃ row accountID nb,
      (createTransactionHandler baseState (reqWin "tW" "5")).1
        = { accounts := setBalance baseState.accounts accountID nb,
            transactions := baseState.transactions ++ [row] } :=
  ⟨(c2_atomic_commit baseState (reqLose "tL" "10.00")).1
      .insufficientBalance (by with_unfolding_all decide),
   (c2_atomic_commit baseState (reqWin "tW" "5")).2
      ⟨1, "tW", 5, "win", "game"⟩ (by with_unfolding_all decide)⟩

/-- **C3.** A submission whose transaction id is already present in the
ledger fails with the duplicate-transaction rejection and leaves the state
(hence the balance) exactly as the first application left it; and the
ledger is append-only: any sequence of requests only ever appends rows, so
a committed transaction is never updated or deleted. -/
theorem c3_duplicate_write_once (st : DBState) (req : Request) :
    (∀ userID account amount,
        ValidateID req.userIDStr = .ok userID →
        getAccountByUser st userID = .ok account →
        validTransaction (decoded account req) = true →
        ParseAmount (decoded account req).amount = .ok amount →
        (st.transactions.any fun r => r.id == (decoded account req).id) = true →
        createTransactionHandler st req = (st, .error .duplicateTransaction)) ∧
    (∀ reqs, ∃ rest,
        (applySeq st reqs).transactions = st.transactions ++ rest) := by
  constructor
  · intro userID account amount hv ha hval hamt hdup
    have hct : createTransaction st (rowOf (finalTx account req amount))
        = .error .duplicateTransaction := createTransaction_dup hdup
    have hunit : txUnit account.id (finalTx account req amount) st
        = .error .duplicateTransaction := by
      unfold txUnit createTransactionInTx
      rw [hct]
      rfl
    exact handler_eq_unit_error hv ha hval hamt hunit
  · exact fun reqs => applySeq_transactions reqs st

/-- Witness for C3: resubmitting id `t1` against the state where `t1` is
already committed is rejected as a duplicate with the state unchanged. -/
theorem c3_witness :
    createTransactionHandler dupState (reqWin "t1" "5")
        = (dupState, .error .duplicateTransaction) ∧
    ∃ rest, (applySeq dupState [reqWin "t2" "5"]).transactions
        = dupState.transactions ++ rest :=
  ⟨(c3_duplicate_write_once dupState (reqWin "t1" "5")).1 1
      ⟨1, 1, 50, "EUR", "active"⟩ 5 (by with_unfolding_all decide) (by with_unfolding_all decide) (by with_unfolding_all decide)
      (by with_unfolding_all decide) (by with_unfolding_all decide),
   (c3_duplicate_write_once dupState (reqWin "t1" "5")).2 [reqWin "t2" "5"]⟩

/-- **C7.** `ParseAmount` fails with `InvalidAmount` on the empty string and
on strings that do not parse as a base-10 number, fails with
`AmountMustBePositive` on parsed values `≤ 0`, and otherwise returns
`round(value × 100) / 100` — values with more than 2 fractional digits are
rounded, not rejected.  (Pure function: no side effects by construction.) -/
theorem c7_parse_amount (s : String) :
    (s = "" → ParseAmount s = .error .invalidAmount) ∧
    (goParseFloat s = none → ParseAmount s = .error .invalidAmount) ∧
    (∀ q, goParseFloat s = some q → q ≤ 0 →
        ParseAmount s = .error .amountMustBePositive ∨ s = "") ∧
    (∀ q, goParseFloat s = some q → 0 < q → s ≠ "" →
        ParseAmount s = .ok ((round (q * 100) : ℚ) / 100)) := by
  refine ⟨?_, ?_, ?_, ?_⟩
  · intro h; simp [ParseAmount, h]
  · intro h
    unfold ParseAmount
    by_cases hs : s = ""
    · rw [if_pos hs]
    · rw [if_neg hs, h]
  · intro q hq hle
    by_cases hs : s = ""
    · exact .inr hs
    · left
      unfold ParseAmount
      rw [if_neg hs, hq]
      dsimp only
      rw [if_pos hle]
  · intro q hq hpos hs
    unfold ParseAmount
    rw [if_neg hs, hq]
    dsimp only
    rw [if_neg (not_le.mpr hpos)]

/-- Witness for C7: `""` and `"abc"` are invalid, `"0"` must be positive,
and `"10.155"` (three fractional digits) is rounded to `10.16`, not
rejected. -/
theorem c7_witness :
    ParseAmount "" = .error .invalidAmount ∧
    ParseAmount "abc" = .error .invalidAmount ∧
    (ParseAmount "0" = .error .amountMustBePositive ∨ "0" = "") ∧
    ParseAmount "10.155" = .ok ((round ((2031 / 200 : ℚ) * 100) : ℚ) / 100) ∧
    ((round ((2031 / 200 : ℚ) * 100) : ℚ) / 100 = 1016 / 100) :=
  ⟨(c7_parse_amount "").1 rfl,
   (c7_parse_amount "abc").2.1 (by with_unfolding_all decide),
   (c7_parse_amount "0").2.2.1 0 (by with_unfolding_all decide) (by with_unfolding_all decide),
   (c7_parse_amount "10.155").2.2.2 (2031 / 200) (by with_unfolding_all decide) (by with_unfolding_all decide)
      (by with_unfolding_all decide),
   by with_unfolding_all decide⟩

/-- **C10.** A successful apply changes only the balance column of the
accounts table: the list of `(id, userID, currency, status)` projections is
unchanged, so in particular the status flag is never mutated by the
transaction engine. -/
theorem c10_only_balance_changes (st : DBState) (req : Request)
    (st' : DBState) (out : TxSuccess)
    (h : createTransactionHandler st req = (st', .ok out)) :
    st'.accounts.map frameOf = st.accounts.map frameOf ∧
    ∀ a' ∈ st'.accounts, ∃ a ∈ st.accounts,
      a'.id = a.id ∧ a'.userID = a.userID ∧ a'.currency = a.currency ∧
      a'.status = a.status := by
  rcases handler_cases st req with ⟨e, heq⟩ | hok
  · rw [heq] at h
    simp at h
  · obtain ⟨userID, account, amount, a, nb, hv, ha, hval, hamt, hgacc, hdup,
      hbranch, heq⟩ := hok
    rw [heq] at h
    simp only [Prod.mk.injEq] at h
    have hframe : st'.accounts.map frameOf = st.accounts.map frameOf := by
      rw [← h.1]
      exact setBalance_frame _ _ _
    refine ⟨hframe, ?_⟩
    intro a' ha'
    have hmm : frameOf a' ∈ st.accounts.map frameOf := by
      rw [← hframe]
      exact List.mem_map_of_mem _ ha'
    obtain ⟨b, hb, hfr⟩ := List.mem_map.mp hmm
    exact ⟨b, hb, (congrArg (fun p => p.1) hfr).symm,
      (congrArg (fun p => p.2.1) hfr).symm,
      (congrArg (fun p => p.2.2.1) hfr).symm,
      (congrArg (fun p => p.2.2.2) hfr).symm⟩

/-- Witness for C10: a committed `win 5` on the account with balance 10
leaves id, owner, currency and status untouched. -/
theorem c10_witness :
    ((⟨[⟨5, 1, 15, "EUR", "active"⟩],
        [⟨"t6", 5, 5, "game", "win"⟩]⟩ : DBState)).accounts.map frameOf
      = (oneAcct 10).accounts.map frameOf ∧
    ∀ a' ∈ ((⟨[⟨5, 1, 15, "EUR", "active"⟩],
        [⟨"t6", 5, 5, "game", "win"⟩]⟩ : DBState)).accounts,
      ∃ a ∈ (oneAcct 10).accounts,
        a'.id = a.id ∧ a'.userID = a.userID ∧ a'.currency = a.currency ∧
        a'.status = a.status :=
  c10_only_balance_changes (oneAcct 10) (reqWin "t6" "5")
    ⟨[⟨5, 1, 15, "EUR", "active"⟩], [⟨"t6", 5, 5, "game", "win"⟩]⟩
    ⟨1, "t6", 5, "win", "game"⟩ (by with_unfolding_all decide)

/-- **C4.** A `lose`/`withdrawal` apply against a resolved account with
current balance `b` fails with `InsufficientBalance` (and the whole apply
leaves the state untouched) when `b - a < 0`, and otherwise commits with
the new balance exactly `b - a` (including the `b - a = 0` case). -/
theorem c4_overdraft_guard (st : DBState) (req : Request) (userID : ℤ)
    (account : Account) (amount : ℚ) (a : Account)
    (hv : ValidateID req.userIDStr = .ok userID)
    (ha : getAccountByUser st userID = .ok account)
    (hval : validTransaction (decoded account req) = true)
    (hamt : ParseAmount (decoded account req).amount = .ok amount)
    (hty : (decoded account req).transactionType = "lose" ∨
           (decoded account req).transactionType = "withdrawal")
    (hdup : (st.transactions.any fun r => r.id == (decoded account req).id) = false)
    (hfk : (st.accounts.any fun x => x.id == (decoded account req).accountID) = true)
    (hacct : getAccount st account.id = .ok a) :
    (a.balance - amount < 0 →
        createTransactionHandler st req = (st, .error .insufficientBalance)) ∧
    (0 ≤ a.balance - amount →
        (createTransactionHandler st req).2
            = .ok { userAccountID := userID
                    transactionID := (decoded account req).id
                    amount := amount
                    transactionType := (decoded account req).transactionType
                    source := (decoded account req).source } ∧
        balanceOf (createTransactionHandler st req).1 account.id
            = some (a.balance - amount)) := by
  have hctx : createTransactionInTx st (finalTx account req amount)
      = .ok ({ st with transactions := st.transactions
                ++ [rowOf (finalTx account req amount)] },
             rowOf (finalTx account req amount)) :=
    createTransactionInTx_eq hdup hfk
  have hacct2 : getAccount ({ st with transactions := st.transactions
      ++ [rowOf (finalTx account req amount)] } : DBState) account.id
      = .ok a :=
    (getAccount_congr rfl account.id).trans hacct
  constructor
  · intro hlt
    have hupd := @updateBalanceInTx_lose_eq _ _ amount _ _ hacct2 hty
    rw [if_pos hlt] at hupd
    have hunit : txUnit account.id (finalTx account req amount) st
        = .error .insufficientBalance := by
      unfold txUnit
      rw [hctx]
      dsimp only
      rw [show (finalTx account req amount).amountFloat = amount from rfl,
          show (finalTx account req amount).transactionType
              = (decoded account req).transactionType from rfl,
          hupd]
    exact handler_eq_unit_error hv ha hval hamt hunit
  · intro hge
    have hnlt : ¬ a.balance - amount < 0 := not_lt.mpr hge
    have hupd := @updateBalanceInTx_lose_eq _ _ amount _ _ hacct2 hty
    rw [if_neg hnlt] at hupd
    have hunit : txUnit account.id (finalTx account req amount) st
        = .ok { accounts := setBalance st.accounts account.id
                  (a.balance - amount),
                transactions := st.transactions
                  ++ [rowOf (finalTx account req amount)] } := by
      unfold txUnit
      rw [hctx]
      dsimp only
      rw [show (finalTx account req amount).amountFloat = amount from rfl,
          show (finalTx account req amount).transactionType
              = (decoded account req).transactionType from rfl,
          hupd]
    have heq := handler_eq_unit_ok hv ha hval hamt hunit
    constructor
    · rw [heq]
    · rw [heq]
      show balanceOf (⟨setBalance st.accounts account.id (a.balance - amount),
          st.transactions ++ [rowOf (finalTx account req amount)]⟩ : DBState)
        account.id = some (a.balance - amount)
      rw [balanceOf_setBalance st.accounts st.transactions _ account.id
            account.id (a.balance - amount), if_pos rfl]
      have hbst : balanceOf (⟨st.accounts, st.transactions⟩ : DBState)
          account.id = some a.balance := by
        unfold balanceOf
        rw [getAccount_eq_find.mp hacct]
        rfl
      rw [hbst]
      rfl

/-- Witness for C4: `lose 10.00` on balance 0 is rejected with
`InsufficientBalance` leaving the state unchanged; `lose 20.00` on balance
50 commits with new balance `50 - 20`. -/
theorem c4_witness :
    createTransactionHandler baseState (reqLose "tA" "10.00")
        = (baseState, .error .insufficientBalance) ∧
    ((createTransactionHandler dupState (reqLose "tB" "20.00")).2
        = .ok ⟨1, "tB", 20, "lose", "game"⟩ ∧
     balanceOf (createTransactionHandler dupState (reqLose "tB" "20.00")).1 1
        = some ((50 : ℚ) - 20)) :=
  ⟨(c4_overdraft_guard baseState (reqLose "tA" "10.00") 1
      ⟨1, 1, 0, "EUR", "active"⟩ 10 ⟨1, 1, 0, "EUR", "active"⟩
      (by with_unfolding_all decide) (by with_unfolding_all decide)
      (by with_unfolding_all decide) (by with_unfolding_all decide)
      (by with_unfolding_all decide) (by with_unfolding_all decide)
      (by with_unfolding_all decide) (by with_unfolding_all decide)).1
      (by with_unfolding_all decide),
   (c4_overdraft_guard dupState (reqLose "tB" "20.00") 1
      ⟨1, 1, 50, "EUR", "active"⟩ 20 ⟨1, 1, 50, "EUR", "active"⟩
      (by with_unfolding_all decide) (by with_unfolding_all decide)
      (by with_unfolding_all decide) (by with_unfolding_all decide)
      (by with_unfolding_all decide) (by with_unfolding_all decide)
      (by with_unfolding_all decide) (by with_unfolding_all decide)).2
      (by with_unfolding_all decide)⟩

/-- Counterexample for C5: the claim says every type outside `{win, lose}`
fails with `InvalidTransactionType` with no state change, but the balance
update accepts `"deposit"` (outside that set) and commits `+amount`. -/
theorem c5_counterexample :
    ("deposit" ≠ "win" ∧ "deposit" ≠ "lose") ∧
    updateBalanceInTx baseState 1 5 "deposit"
      = .ok (⟨[⟨1, 1, 5, "EUR", "active"⟩, ⟨2, 2, 0, "EUR", "active"⟩], []⟩,
             ⟨1, 1, 5, "EUR", "active"⟩) ∧
    updateBalanceInTx baseState 1 5 "deposit"
      ≠ .error .invalidTransactionType := by
  with_unfolding_all decide

/-- **C5 (amended).** The signed delta is `+amount` for `win`/`deposit` and
`-amount` for `lose`/`withdrawal` (with the overdraft guard); a type
outside `{win, deposit, lose, withdrawal}` fails with
`InvalidTransactionType`, and composed with `runInTx` the state is
unchanged; moreover the handler's request validation only admits types in
`{win, lose}`, so `deposit`/`withdrawal` never reach the balance update
through the handler. -/
theorem c5_signed_delta (st : DBState) (accountID : ℤ) (amount : ℚ)
    (ttype : String) (a : Account)
    (hacct : getAccount st accountID = .ok a) :
    ((ttype = "win" ∨ ttype = "deposit") →
        updateBalanceInTx st accountID amount ttype
          = .ok ({ st with
                    accounts := setBalance st.accounts accountID (a.balance + amount) },
                 { a with balance := a.balance + amount })) ∧
    ((ttype = "lose" ∨ ttype = "withdrawal") →
        updateBalanceInTx st accountID amount ttype
          = if a.balance - amount < 0 then .error .insufficientBalance
            else .ok ({ st with
                         accounts := setBalance st.accounts accountID (a.balance - amount) },
                      { a with balance := a.balance - amount })) ∧
    (ttype ≠ "win" → ttype ≠ "deposit" → ttype ≠ "lose" → ttype ≠ "withdrawal" →
        updateBalanceInTx st accountID amount ttype
            = .error .invalidTransactionType ∧
        runInTx st (fun qs =>
            (updateBalanceInTx qs accountID amount ttype).map Prod.fst)
          = (st, some .invalidTransactionType)) ∧
    (∀ t : Transaction, validTransaction t = true →
        t.transactionType = "win" ∨ t.transactionType = "lose") := by
  refine ⟨fun hty => updateBalanceInTx_win_eq hacct hty,
          fun hty => updateBalanceInTx_lose_eq hacct hty, ?_,
          fun t ht => valid_type_win_or_lose ht⟩
  intro h1 h2 h3 h4
  have hinv := @updateBalanceInTx_invalid_eq _ _ amount _ _ hacct
    (by tauto) (by tauto)
  have hfn : (fun qs => (updateBalanceInTx qs accountID amount ttype).map
      Prod.fst) st = Except.error Err.invalidTransactionType := by
    show (updateBalanceInTx st accountID amount ttype).map Prod.fst
        = Except.error Err.invalidTransactionType
    rw [hinv]
    rfl
  exact ⟨hinv, runInTx_of_error hfn⟩

/-- Witness for C5: type `"foo"` is rejected with `InvalidTransactionType`
and the surrounding unit rolls back to the unchanged state. -/
theorem c5_witness :
    updateBalanceInTx baseState 1 5 "foo" = .error .invalidTransactionType ∧
    runInTx baseState (fun qs => (updateBalanceInTx qs 1 5 "foo").map Prod.fst)
      = (baseState, some .invalidTransactionType) :=
  (c5_signed_delta baseState 1 5 "foo" ⟨1, 1, 0, "EUR", "active"⟩
      (by with_unfolding_all decide)).2.2.1
    (by decide) (by decide) (by decide) (by decide)

/-- Counterexample for C6: two successful applies of the same request, from
states differing only in the account's balance, produce identical success
payloads although the post-apply balances differ (15 vs 45), so the payload
contains no new balance; and its only id field is the user id (1), not the
account id (5). -/
theorem c6_counterexample :
    (createTransactionHandler (oneAcct 10) (reqWin "t6" "5")).2
        = (createTransactionHandler (oneAcct 40) (reqWin "t6" "5")).2 ∧
    (createTransactionHandler (oneAcct 10) (reqWin "t6" "5")).2
        = .ok ⟨1, "t6", 5, "win", "game"⟩ ∧
    balanceOf (createTransactionHandler (oneAcct 10) (reqWin "t6" "5")).1 5
        = some 15 ∧
    balanceOf (createTransactionHandler (oneAcct 40) (reqWin "t6" "5")).1 5
        = some 45 ∧
    (15 : ℚ) ≠ 45 ∧ (1 : ℤ) ≠ 5 := by
  with_unfolding_all decide

/-- **C6 (amended).** On success the handler returns exactly the payload
`{user_account_id, transaction_id, amount, type, source}`, where
`user_account_id` is the resolved user id and `amount` the normalized
amount; the payload does not include the post-apply account snapshot or the
new balance. -/
theorem c6_success_payload (st : DBState) (req : Request) (st' : DBState)
    (out : TxSuccess) (h : createTransactionHandler st req = (st', .ok out)) :
    ∃ userID account amount,
      ValidateID req.userIDStr = .ok userID ∧
      getAccountByUser st userID = .ok account ∧
      ParseAmount (decoded account req).amount = .ok amount ∧
      out = { userAccountID := userID
              transactionID := (decoded account req).id
              amount := amount
              transactionType := (decoded account req).transactionType
              source := (decoded account req).source } := by
  rcases handler_cases st req with ⟨e, heq⟩ | hok
  · rw [heq] at h
    simp at h
  · obtain ⟨userID, account, amount, a, nb, hv, ha, hval, hamt, hgacc, hdup,
      hbranch, heq⟩ := hok
    rw [heq] at h
    simp only [Prod.mk.injEq, Except.ok.injEq] at h
    exact ⟨userID, account, amount, hv, ha, hamt, h.2.symm⟩

/-- Witness for C6: the committed `win 5` on account 5 (user 1, balance 10)
returns the five-field payload. -/
theorem c6_witness :
    ∃ userID account amount,
      ValidateID (reqWin "t6" "5").userIDStr = .ok userID ∧
      getAccountByUser (oneAcct 10) userID = .ok account ∧
      ParseAmount (decoded account (reqWin "t6" "5")).amount = .ok amount ∧
      (⟨1, "t6", 5, "win", "game"⟩ : TxSuccess)
        = { userAccountID := userID
            transactionID := (decoded account (reqWin "t6" "5")).id
            amount := amount
            transactionType := (decoded account (reqWin "t6" "5")).transactionType
            source := (decoded account (reqWin "t6" "5")).source } :=
  c6_success_payload (oneAcct 10) (reqWin "t6" "5")
    ⟨[⟨5, 1, 15, "EUR", "active"⟩], [⟨"t6", 5, 5, "game", "win"⟩]⟩
    ⟨1, "t6", 5, "win", "game"⟩ (by with_unfolding_all decide)

/-- Counterexample for C8: a body that supplies `account_id = 2` on user
1's request commits a ledger row referencing account 2 while the balance
update hits account 1 — the committed row's accountID differs from the id
of the account whose balance changed in the same unit. -/
theorem c8_counterexample :
    createTransactionHandler baseState (reqSpoof "t8" "7")
      = (⟨[⟨1, 1, 7, "EUR", "active"⟩, ⟨2, 2, 0, "EUR", "active"⟩],
          [⟨"t8", 2, 7, "game", "win"⟩]⟩,
         .ok ⟨1, "t8", 7, "win", "game"⟩) ∧
    balanceOf baseState 1 = some 0 ∧
    balanceOf baseState 2 = some 0 ∧
    (2 : ℤ) ≠ 1 := by
  with_unfolding_all decide

/-- **C8 (amended).** Whenever the request body does not override the
pre-filled account id (omits `account_id` or repeats the resolved
account's id), the committed ledger row references exactly the account
whose balance was updated in the same atomic unit; in general the row
stores the body-supplied account id while the balance update always uses
the resolved account's id. -/
theorem c8_ledger_matches_update (st : DBState) (req : Request)
    (st' : DBState) (out : TxSuccess) (userID : ℤ) (account : Account)
    (hgood : GoodReq st req)
    (h : createTransactionHandler st req = (st', .ok out))
    (hv : ValidateID req.userIDStr = .ok userID)
    (ha : getAccountByUser st userID = .ok account) :
    ∃ row nb, st'.transactions = st.transactions ++ [row] ∧
      row.accountID = account.id ∧
      st'.accounts = setBalance st.accounts account.id nb := by
  rcases handler_cases st req with ⟨e, heq⟩ | hok
  · rw [heq] at h
    simp at h
  · obtain ⟨userID', account', amount, a, nb, hv', ha', hval, hamt, hgacc,
      hdup, hbranch, heq⟩ := hok
    rw [hv] at hv'
    have huid : userID = userID' := (Except.ok.injEq _ _).mp hv'
    subst huid
    rw [ha] at ha'
    have hacc : account = account' := (Except.ok.injEq _ _).mp ha'
    subst hacc
    rw [heq] at h
    simp only [Prod.mk.injEq] at h
    refine ⟨rowOf (finalTx account req amount), nb, ?_, ?_, ?_⟩
    · rw [← h.1]
    · exact decoded_accountID_of_good hgood hv ha
    · rw [← h.1]

/-- Witness for C8: a request with no body `account_id` commits the row
against the same account whose balance was updated. -/
theorem c8_witness :
    ∃ row nb,
      ((⟨[⟨1, 1, 5, "EUR", "active"⟩, ⟨2, 2, 0, "EUR", "active"⟩],
         [⟨"t8w", 1, 5, "game", "win"⟩]⟩ : DBState)).transactions
        = baseState.transactions ++ [row] ∧
      row.accountID = (⟨1, 1, 0, "EUR", "active"⟩ : Account).id ∧
      ((⟨[⟨1, 1, 5, "EUR", "active"⟩, ⟨2, 2, 0, "EUR", "active"⟩],
         [⟨"t8w", 1, 5, "game", "win"⟩]⟩ : DBState)).accounts
        = setBalance baseState.accounts
            (⟨1, 1, 0, "EUR", "active"⟩ : Account).id nb :=
  c8_ledger_matches_update baseState (reqWin "t8w" "5")
    ⟨[⟨1, 1, 5, "EUR", "active"⟩, ⟨2, 2, 0, "EUR", "active"⟩],
     [⟨"t8w", 1, 5, "game", "win"⟩]⟩
    ⟨1, "t8w", 5, "win", "game"⟩ 1 ⟨1, 1, 0, "EUR", "active"⟩
    (by with_unfolding_all decide) (by with_unfolding_all decide)
    (by with_unfolding_all decide) (by with_unfolding_all decide)

/-- Counterexample for C9: for a request with both an unparseable amount
(`"abc"`) and a nonexistent account (user 9), the handler returns
`AccountNotFound`, not the amount-normalization failure — account
resolution happens before amount normalization. -/
theorem c9_counterexample :
    goParseFloat "abc" = none ∧
    getAccountByUser baseState 9 = .error .accountNotFound ∧
    createTransactionHandler baseState reqNoAcct
      = (baseState, .error .accountNotFound) ∧
    Err.accountNotFound ≠ Err.invalidAmount := by
  with_unfolding_all decide

/-- **C9 (amended).** The handler's step order is: validate the path id,
resolve and load the account (an account-lookup failure is returned
regardless of the body), then validate the decoded body, then normalize the
amount (a normalization failure is returned with the state unchanged,
before any balance read or commit), then run the atomic unit. -/
theorem c9_step_order (st : DBState) (req : Request) :
    (∀ userID e, ValidateID req.userIDStr = .ok userID →
        getAccountByUser st userID = .error e →
        createTransactionHandler st req = (st, .error e)) ∧
    (∀ userID account e, ValidateID req.userIDStr = .ok userID →
        getAccountByUser st userID = .ok account →
        validTransaction (decoded account req) = true →
        ParseAmount (decoded account req).amount = .error e →
        createTransactionHandler st req = (st, .error e)) :=
  ⟨fun _ _ hv ha => handler_eq_account_error hv ha,
   fun _ _ _ hv ha hval hamt => handler_eq_amount_error hv ha hval hamt⟩

/-- Witness for C9: user 9 has no account, so the lookup failure wins even
with a bad amount; user 1 with amount `"abc"` gets `InvalidAmount` with the
state unchanged. -/
theorem c9_witness :
    createTransactionHandler baseState reqNoAcct
        = (baseState, .error .accountNotFound) ∧
    createTransactionHandler baseState (reqWin "t9b" "abc")
        = (baseState, .error .invalidAmount) :=
  ⟨(c9_step_order baseState reqNoAcct).1 9 .accountNotFound
      (by with_unfolding_all decide) (by with_unfolding_all decide),
   (c9_step_order baseState (reqWin "t9b" "abc")).2 1
      ⟨1, 1, 0, "EUR", "active"⟩ .invalidAmount
      (by with_unfolding_all decide) (by with_unfolding_all decide)
      (by with_unfolding_all decide) (by with_unfolding_all decide)⟩

/-- Counterexample for C1: the spoofed-body request commits successfully,
yet account 2's balance (0) differs from its initial balance plus the sum
of the signed amounts of the transactions committed against it in the
ledger (0 + 5): the ledger attributes the transaction to account 2 while
the balance delta was applied to account 1. -/
theorem c1_counterexample :
    (createTransactionHandler baseState (reqSpoof "t1" "5")).2
        = .ok ⟨1, "t1", 5, "win", "game"⟩ ∧
    balanceOf baseState 2 = some 0 ∧
    ledgerSum baseState.transactions 2 = 0 ∧
    ledgerSum (applySeq baseState [reqSpoof "t1" "5"]).transactions 2 = 5 ∧
    balanceOf (applySeq baseState [reqSpoof "t1" "5"]) 2 = some 0 ∧
    balanceOf (applySeq baseState [reqSpoof "t1" "5"]) 2
      ≠ some ((0 : ℚ)
          + ledgerSum (applySeq baseState [reqSpoof "t1" "5"]).transactions 2) := by
  with_unfolding_all decide

theorem applyRequest_wf (st : DBState) (req : Request) (hwf : WF st) :
    WF (applyRequest st req) := by
  rcases handler_cases st req with ⟨e, heq⟩ | hok
  · simpa only [applyRequest, heq] using hwf
  · obtain ⟨userID, account, amount, a, nb, hv, ha, hval, hamt, hgacc, hdup,
      hbranch, heq⟩ := hok
    have hamnn : 0 ≤ amount := parseAmount_nonneg hamt
    have habal : 0 ≤ a.balance := hwf.2 a (getAccount_ok_mem hgacc).1
    have hnbnn : 0 ≤ nb := by
      rcases hbranch with ⟨-, hnb⟩ | ⟨-, hnb, hnn⟩
      · rw [hnb]; positivity
      · exact hnn
    constructor
    · simp only [applyRequest, heq]
      rw [setBalance_ids]
      exact hwf.1
    · simp only [applyRequest, heq]
      intro a' ha'
      obtain ⟨b, hb, hba⟩ := List.mem_map.mp ha'
      by_cases hbid : b.id == account.id
      · rw [← hba]; simpa [setBalance, hbid] using hnbnn
      · rw [← hba]
        simpa [setBalance, hbid] using hwf.2 b hb

theorem applySeq_wf (reqs : List Request) : ∀ st : DBState, WF st →
    WF (applySeq st reqs) := by
  induction reqs with
  | nil => intro st hwf; exact hwf
  | cons r rs ih =>
    intro st hwf
    exact ih (applyRequest st r) (applyRequest_wf st r hwf)

/-- **C1 (amended).** From a well-formed state (distinct account ids,
non-negative balances): for every sequence of requests whatsoever and at
every prefix of it, no account balance is ever negative; and for every
sequence whose bodies do not override the resolved account id, every
account's balance after the sequence equals its initial balance plus the
sum of the signed amounts (+amount for `win`, -amount for `lose`) of the
ledger rows committed against it. -/
theorem c1_balance_invariant (st : DBState) (reqs : List Request)
    (hwf : WF st) :
    (∀ n, ∀ a' ∈ (applySeq st (reqs.take n)).accounts, 0 ≤ a'.balance) ∧
    ((∀ req ∈ reqs, GoodReq st req) →
      ∃ rest, (applySeq st reqs).transactions = st.transactions ++ rest ∧
        ∀ a' ∈ (applySeq st reqs).accounts,
          ∃ a ∈ st.accounts, a.id = a'.id ∧
            a'.balance = a.balance + ledgerSum rest a'.id) := by
  constructor
  · intro n a' ha'
    exact (applySeq_wf (reqs.take n) st hwf).2 a' ha'
  · intro hgood
    obtain ⟨rest, ht, hf, hb, hwf'⟩ := applySeq_inv reqs st hwf hgood
    refine ⟨rest, ht, ?_⟩
    intro a' ha'
    have hmm : frameOf a' ∈ st.accounts.map frameOf := by
      rw [← hf]
      exact List.mem_map_of_mem _ ha'
    obtain ⟨a, hamem, hfr⟩ := List.mem_map.mp hmm
    have hid : a.id = a'.id := congrArg (fun p => p.1) hfr
    refine ⟨a, hamem, hid, ?_⟩
    have h1 : balanceOf (applySeq st reqs) a'.id = some a'.balance :=
      balanceOf_eq_of_mem hwf'.1 ha'
    have h2 : balanceOf st a.id = some a.balance :=
      balanceOf_eq_of_mem hwf.1 hamem
    rw [hid] at h2
    have h3 := hb a'.id
    rw [h1, h2] at h3
    simp only [Option.map_some', Option.some.injEq] at h3
    exact h3

/-- Witness for C1: from the seeded two-account state, `win 50.00` then
`lose 20.00` against account 1 keep all balances non-negative at every
prefix (a fact needing no condition on the bodies) and satisfy the
ledger-sum invariant. -/
theorem c1_witness :
    WF baseState ∧
    (∀ n, ∀ a' ∈ (applySeq baseState
        ([reqWin "tw1" "50.00", reqLose "tw2" "20.00"].take n)).accounts,
      0 ≤ a'.balance) ∧
    (∀ req ∈ [reqWin "tw1" "50.00", reqLose "tw2" "20.00"],
        GoodReq baseState req) ∧
    ∃ rest,
      (applySeq baseState
          [reqWin "tw1" "50.00", reqLose "tw2" "20.00"]).transactions
        = baseState.transactions ++ rest ∧
      ∀ a' ∈ (applySeq baseState
          [reqWin "tw1" "50.00", reqLose "tw2" "20.00"]).accounts,
        ∃ a ∈ baseState.accounts, a.id = a'.id ∧
          a'.balance = a.balance + ledgerSum rest a'.id :=
  ⟨by with_unfolding_all decide,
   (c1_balance_invariant baseState
      [reqWin "tw1" "50.00", reqLose "tw2" "20.00"]
      (by with_unfolding_all decide)).1,
   by with_unfolding_all decide,
   (c1_balance_invariant baseState
      [reqWin "tw1" "50.00", reqLose "tw2" "20.00"]
      (by with_unfolding_all decide)).2 (by with_unfolding_all decide)⟩

end GoBanking
